import Mathlib

set_option maxRecDepth 10000

/-!
Shallow embedding of the `demo001` table-assembly engine
(`population.py`, `baseline.py`, `safety.py`) over Lean lists.

Modelling conventions, shared by every definition below:

* A polars `DataFrame` is a `List` of typed row structures; column selections
  are projections.
* Exact numeric values are carried as explicit fractions (`Frac`): an integer
  numerator and a positive natural denominator, not necessarily reduced.
  Every arithmetic step of the source (means, medians, percentages, rounding)
  is exact at these values, so the fraction semantics agrees with the float
  semantics of polars on everything the program renders (all rendered values
  are rounded to at most two decimals first).
* polars floating point cells are modelled by `PFloat`: a `Frac` payload plus
  the distinguished `null`, `NaN`, `inf`, `-inf` states, so that the polars
  semantics of division by zero (IEEE `inf`/`NaN`) and of missing values
  (`null`) stay distinguishable, exactly as they are in polars.
* `group_by` is modelled as a map over the first-occurrence-ordered list of
  distinct keys (`uniqueFirst`).  Every consumer of a grouped frame in this
  code base either re-sorts, joins on the key, or filters on the key, so the
  (unspecified) polars group order is unobservable.
* `round` is round-half-away-from-zero, matching Rust's `f64::round` used by
  polars `Expr.round`.
* Python exceptions surface as `Except PyErr`; `PyErr` distinguishes the
  `AttributeError` of `None.replace`, the `ShapeError` of a ragged
  `pl.DataFrame(..., orient="row")` call, and the out-of-bounds error of
  indexing `[0]` into an empty frame.
-/

/-- An exact fraction: integer numerator over a positive natural denominator,
not necessarily in lowest terms.  (Mathlib's `ℚ` is not used because its
arithmetic is `irreducible`, which would block concrete evaluation of the
embedding inside proofs.) -/
structure Frac where
  num : ℤ
  den : ℕ
deriving DecidableEq

/-- The fraction `z / 1`. -/
def Frac.ofInt (z : ℤ) : Frac := ⟨z, 1⟩

/-- The fraction `n / 1`. -/
def Frac.ofNat (n : ℕ) : Frac := ⟨n, 1⟩

/-- Exact addition (denominators are kept common when they already agree). -/
def Frac.add (a b : Frac) : Frac :=
  if a.den = b.den then ⟨a.num + b.num, a.den⟩
  else ⟨a.num * b.den + b.num * a.den, a.den * b.den⟩

/-- Exact subtraction. -/
def Frac.sub (a b : Frac) : Frac :=
  if a.den = b.den then ⟨a.num - b.num, a.den⟩
  else ⟨a.num * b.den - b.num * a.den, a.den * b.den⟩

/-- Exact multiplication. -/
def Frac.mul (a b : Frac) : Frac := ⟨a.num * b.num, a.den * b.den⟩

/-- Exact negation. -/
def Frac.neg (a : Frac) : Frac := ⟨-a.num, a.den⟩

/-- Reciprocal (callers guard the zero case). -/
def Frac.inv (a : Frac) : Frac :=
  if a.num < 0 then ⟨-(a.den : ℤ), a.num.natAbs⟩ else ⟨(a.den : ℤ), a.num.natAbs⟩

/-- Exact division (callers guard division by zero). -/
def Frac.div (a b : Frac) : Frac := a.mul b.inv

/-- Sum of a list of fractions. -/
def Frac.sumList (l : List Frac) : Frac := l.foldr Frac.add (Frac.ofNat 0)

/-- Floor of a fraction, via flooring integer division. -/
def Frac.floor (a : Frac) : ℤ := Int.fdiv a.num a.den

/-- Round to the nearest integer, halves away from zero: the behaviour of
Rust's `f64::round`, which polars `Expr.round` is built on. -/
def roundHalfAway (q : Frac) : ℤ :=
  if q.num < 0 then -(q.neg.add ⟨1, 2⟩).floor else (q.add ⟨1, 2⟩).floor

/-- polars `Expr.round(d)`: round to `d` decimal places, halves away from
zero. -/
def roundQ (d : ℕ) (q : Frac) : Frac :=
  ⟨roundHalfAway (q.mul (Frac.ofNat (10 ^ d))), 10 ^ d⟩

/-- Floor of the square root of a natural number, by binary descent over the
bits; exact for every `n < 2 ^ 66` (far beyond any value produced here). -/
def isqrt (n : ℕ) : ℕ :=
  (List.range 65).foldl (fun acc i =>
    let c := acc + 2 ^ (64 - i)
    if c * c ≤ n then c else acc) 0

/-- `round(sqrt v, p)` for a nonnegative fraction `v`, computed exactly:
`10^p * sqrt (a/b) = sqrt (10^(2p) * a * b) / b`, so the rounded value can be
read off integer square roots.  This models polars computing a standard
deviation in floating point and rounding it to `p` decimals. -/
def roundSqrtTo (p : ℕ) (v : Frac) : Frac :=
  let a := v.num.toNat
  let b := v.den
  let m := 10 ^ (2 * p) * a * b
  let k := isqrt m / b
  let r := if (2 * k + 1) ^ 2 * b ^ 2 ≤ 4 * m then k + 1 else k
  ⟨(r : ℤ), 10 ^ p⟩

/-- The character for a decimal digit `d < 10`. -/
def digitChar (d : ℕ) : Char := Char.ofNat (48 + d)

/-- Decimal digit characters of `n`, most significant first, driven by fuel so
that the definition is structurally recursive (kernel reducible).  The fuel
`n + 1` used by `natChars` always suffices. -/
def natCharsAux : ℕ → ℕ → List Char
  | 0, _ => []
  | fuel + 1, n => if n < 10 then [digitChar n] else natCharsAux fuel (n / 10) ++ [digitChar (n % 10)]

/-- Decimal digit characters of a natural number. -/
def natChars (n : ℕ) : List Char := natCharsAux (n + 1) n

/-- Decimal rendering of a natural number (as Python `str` of an int). -/
def natStr (n : ℕ) : String := String.mk (natChars n)

/-- Decimal rendering of `n` left-padded with zeros to width `k`. -/
def natStrPad (k n : ℕ) : String :=
  String.mk (List.replicate (k - (natChars n).length) '0' ++ natChars n)

/-- Decimal rendering of an integer (as Python `str` of an int). -/
def intStr (z : ℤ) : String :=
  if z < 0 then "-" ++ natStr z.natAbs else natStr z.natAbs

/-- Rendering of a (decimal-representable) fraction the way polars casts a
`Float64` to string: minimal digits, but always at least one decimal digit
(`35 ↦ "35.0"`, `7.07 ↦ "7.07"`).  Every float rendered by this code base has
been rounded to at most two decimals, so the 18-step search always succeeds;
the fallback keeps the function total. -/
def decStr (q : Frac) : String :=
  let sgn := if q.num < 0 then "-" else ""
  let an : ℕ := q.num.natAbs
  let d : ℕ := q.den
  match (List.range 18).find? (fun k => an * 10 ^ k % d == 0) with
  | some k =>
      let m := an * 10 ^ k / d
      if k = 0 then sgn ++ natStr m ++ ".0"
      else sgn ++ natStr (m / 10 ^ k) ++ "." ++ natStrPad k (m % 10 ^ k)
  | none => sgn ++ natStr an ++ "e" ++ natStr d

/-- A polars `Float64` cell: a fraction payload or one of the distinguished
states `null` (missing), `NaN`, `inf`, `-inf`. -/
inductive PFloat where
  | null : PFloat
  | nan : PFloat
  | inf : PFloat
  | neginf : PFloat
  | val : Frac → PFloat
deriving DecidableEq

/-- Lift an optional natural (a nullable integer column) into `PFloat`. -/
def PFloat.ofOptNat : Option ℕ → PFloat
  | none => .null
  | some n => .val (Frac.ofNat n)

/-- polars multiplication: `null` propagates; on floats, IEEE. -/
def PFloat.mul : PFloat → PFloat → PFloat
  | .null, _ => .null
  | _, .null => .null
  | .nan, _ => .nan
  | _, .nan => .nan
  | .val a, .val b => .val (a.mul b)
  | .inf, .inf => .inf
  | .inf, .neginf => .neginf
  | .neginf, .inf => .neginf
  | .neginf, .neginf => .inf
  | .inf, .val b => if b.num = 0 then .nan else if 0 < b.num then .inf else .neginf
  | .val a, .inf => if a.num = 0 then .nan else if 0 < a.num then .inf else .neginf
  | .neginf, .val b => if b.num = 0 then .nan else if 0 < b.num then .neginf else .inf
  | .val a, .neginf => if a.num = 0 then .nan else if 0 < a.num then .neginf else .inf

/-- polars division: `null` propagates; on floats, IEEE — in particular
`x / 0` is `inf`/`-inf`/`NaN`, never an error and never `null`. -/
def PFloat.div : PFloat → PFloat → PFloat
  | .null, _ => .null
  | _, .null => .null
  | .nan, _ => .nan
  | _, .nan => .nan
  | .val a, .val b =>
      if b.num = 0 then (if a.num = 0 then .nan else if 0 < a.num then .inf else .neginf)
      else .val (a.div b)
  | .inf, .val b => if b.num < 0 then .neginf else .inf
  | .neginf, .val b => if b.num < 0 then .inf else .neginf
  | .val _, .inf => .val (Frac.ofNat 0)
  | .val _, .neginf => .val (Frac.ofNat 0)
  | .inf, .inf => .nan
  | .inf, .neginf => .nan
  | .neginf, .inf => .nan
  | .neginf, .neginf => .nan

/-- polars `Expr.round(d)` on a nullable float: only a numeric payload is
rounded; `null`, `NaN` and infinities pass through. -/
def PFloat.round (d : ℕ) : PFloat → PFloat
  | .val q => .val (roundQ d q)
  | x => x

/-- polars `fill_null(v)`: replaces `null` only — a `NaN` is *not* null and
passes through untouched. -/
def PFloat.fillNull (v : Frac) : PFloat → PFloat
  | .null => .val v
  | x => x

/-- polars `cast(str)` on a float: `NaN ↦ "NaN"`, `inf ↦ "inf"`.  A `null`
stays null in polars; the `"null"` branch is unreachable in this code base
because every cast is preceded by `fill_null`. -/
def PFloat.castStr : PFloat → String
  | .null => "null"
  | .nan => "NaN"
  | .inf => "inf"
  | .neginf => "-inf"
  | .val q => decStr q

/-- `unique(maintain_order=True)`: distinct elements in order of first
occurrence, structurally recursive over the input with an accumulator of the
elements already seen. -/
def uniqueFirstAux [DecidableEq α] (seen : List α) : List α → List α
  | [] => []
  | a :: l => if a ∈ seen then uniqueFirstAux seen l else a :: uniqueFirstAux (a :: seen) l

/-- Distinct elements of a list in first-occurrence order. -/
def uniqueFirst [DecidableEq α] (l : List α) : List α := uniqueFirstAux [] l

/-- Title-casing of a string (Python `str.title` / polars `str.to_titlecase`
on the ASCII data used here): an alphabetic character is uppercased when the
previous character was not alphabetic and lowercased otherwise. -/
def titlecaseChars : Bool → List Char → List Char
  | _, [] => []
  | prev, c :: cs =>
      (if c.isAlpha then (if prev then c.toLower else c.toUpper) else c) ::
        titlecaseChars c.isAlpha cs

/-- Title-casing of a string. -/
def titlecase (s : String) : String := String.mk (titlecaseChars false s.data)

/-- Does the second character list start with the first? -/
def charsStartWith : List Char → List Char → Bool
  | [], _ => true
  | _ :: _, [] => false
  | p :: ps, c :: cs => p == c && charsStartWith ps cs

/-- Python `str.replace` on character lists: scan left to right, replacing
each (non-overlapping) occurrence of `pat`.  Structurally recursive on fuel;
fuel `s.length` always suffices because a replacement step consumes at least
one character of a nonempty `pat`. -/
def replaceCharsAux (pat rep : List Char) : ℕ → List Char → List Char
  | _, [] => []
  | 0, s => s
  | fuel + 1, c :: cs =>
      if charsStartWith pat (c :: cs) && !pat.isEmpty then
        rep ++ replaceCharsAux pat rep fuel ((c :: cs).drop pat.length)
      else
        c :: replaceCharsAux pat rep fuel cs

/-- Python `s.replace(pat, rep)`: replaces every occurrence of the substring
`pat` in `s` by `rep`. -/
def pyReplace (s pat rep : String) : String :=
  String.mk (replaceCharsAux pat.data rep.data s.data.length s.data)

/-- A Python exception, as far as this engine can raise one. -/
inductive PyErr where
  | attributeError : PyErr
  | shapeError : PyErr
  | indexError : PyErr
deriving DecidableEq

/-- An output table: the column header and the rows, each row a list of
nullable string cells (`none` is a polars `null` cell, as produced by a
Python `None` entry). -/
structure PTable where
  header : List String
  rows : List (List (Option String))
deriving DecidableEq

/-- `pl.DataFrame(rows, schema, orient="row")`: fails with a `ShapeError`
when some row's length differs from the schema's. -/
def mkTableE (header : List String) (rows : List (List (Option String))) :
    Except PyErr PTable :=
  if rows.all (fun r => r.length = header.length) then .ok ⟨header, rows⟩
  else .error .shapeError

/-- Effectful map over a list in the `Except` monad, structurally recursive
(kernel reducible, unlike `List.mapM`): stops at the first error, like a
Python loop stopping at the first raised exception. -/
def exceptMap (f : α → Except PyErr β) : List α → Except PyErr (List β)
  | [] => .ok []
  | a :: l => do
      let b ← f a
      let bs ← exceptMap f l
      .ok (b :: bs)

/-- A row of an adverse-events dataset (`adae`): the event-level schema used
by `safety.py`. -/
structure AdaeRow where
  USUBJID : String
  TRT01A : String
  AEDECOD : String
  AEBODSYS : String
  AESER : String
  AEREL : String
  AEOUT : String
  AEACN : String
deriving DecidableEq

/-- A row of a subject-level dataset (`adsl`) as consumed by `baseline.py`:
the treatment group plus the (total) maps giving each continuous variable's
integer value and each categorical variable's nullable value on this row. -/
structure AdslRow where
  TRT01P : String
  contVal : String → ℤ
  catVal : String → Option String

/-- A row of a population summary (`pop_summary`), as consumed by
`format_population_table`. -/
structure PopRow where
  TRT01P : String
  n : ℕ
  population : String
deriving DecidableEq

/-- A row of an AE summary (`ae_summary`), as consumed by
`format_ae_summary`.  The count is nullable: `format_ae_summary` itself
applies `fill_null(0)` to it. -/
structure AeSumRow where
  TRT01A : String
  n : Option ℕ
  category : String
deriving DecidableEq

/-! ### `safety.py` -/

/-- The optional filter of `count_participants`: `df.filter(condition)` when
a condition is given, the unfiltered frame otherwise. -/
def condFilter (cond : Option (AdaeRow → Bool)) (df : List AdaeRow) : List AdaeRow :=
  match cond with
  | some c => df.filter c
  | none => df

/-- `df.group_by("TRT01A").agg(n=pl.col("USUBJID").n_unique())`: one row per
distinct treatment group, carrying the number of distinct subject ids in the
group. -/
def aeGroupCounts (df : List AdaeRow) : List (String × ℕ) :=
  (uniqueFirst (df.map (fun r => r.TRT01A))).map (fun t =>
    (t, (uniqueFirst ((df.filter (fun r => r.TRT01A == t)).map (fun r => r.USUBJID))).length))

/-- `count_participants` (`safety.py`): filter by the optional condition,
count distinct subjects per treatment group, then left-join onto the
treatment-levels frame and `fill_null(0)`, so that every required treatment
level gets exactly one row, with count `0` when the group is absent from the
aggregation. -/
def count_participants (df : List AdaeRow) (treatment_levels : List String)
    (condition : Option (AdaeRow → Bool)) : List (String × ℕ) :=
  let df2 := condFilter condition df
  let counts := aeGroupCounts df2
  treatment_levels.map (fun t => (t, (List.lookup t counts).getD 0))

/-- A row of the frame produced by `format_ae_summary`. -/
structure AeFmtRow where
  TRT01A : String
  n : ℕ
  category : String
  N : Option ℕ
  pct : PFloat
  n_display : String
  pct_display : String
deriving DecidableEq

/-- `format_ae_summary` (`safety.py`): left-join the population counts, fill
null counts with 0, compute `pct = round(100.0 * n / N, 1)` (no percentage on
the population row), then render `n` and `(pct)` as display strings, blanking
the population row's percentage.  The percentage of the population row is
polars `None`; elsewhere the full polars float semantics applies: a null `N`
(group absent from `pop_counts`) gives a null percentage which `fill_null(0)`
turns into `0.0`, while a literal `N = 0` gives IEEE `NaN`/`inf`, which
`fill_null` does *not* replace. -/
def format_ae_summary (ae_summary : List AeSumRow) (pop_counts : List (String × ℕ)) :
    List AeFmtRow :=
  ae_summary.map (fun r =>
    let N := List.lookup r.TRT01A pop_counts
    let n := r.n.getD 0
    let pct : PFloat :=
      if r.category = "Participants in population" then .null
      else PFloat.round 1
        (PFloat.div (PFloat.mul (.val (Frac.ofNat 100)) (PFloat.ofOptNat r.n))
          (PFloat.ofOptNat N))
    let n_display := natStr n
    let pct_display :=
      if r.category = "Participants in population" then ""
      else "(" ++ (PFloat.round 1 (PFloat.fillNull (Frac.ofNat 0) pct)).castStr ++ ")"
    ⟨r.TRT01A, n, r.category, N, pct, n_display, pct_display⟩)

/-- `pop_counts.filter(pl.col("TRT01A") == t)["N"][0]` — `none` models the
out-of-bounds error raised when the treatment is absent from `pop_counts`. -/
def popLookup (pop_counts : List (String × ℕ)) (t : String) : Option ℕ :=
  ((pop_counts.filter (fun r => r.1 == t)).map (fun r => r.2)).head?

/-- A row of the grouped AE counts frame of `create_ae_by_soc_table`:
treatment group, title-cased system organ class and AE term, and the distinct
subject count. -/
structure AeCountRow where
  TRT01A : String
  AEBODSYS_STD : String
  AEDECOD_STD : String
  n : ℕ
deriving DecidableEq

/-- The polars string sort order: lexicographic on the characters (UTF-8
byte order and codepoint order agree).  Mathlib's `String` order is not used
because its decision procedure (`String.ltb`) is well-founded-recursive and
so would block concrete evaluation inside proofs. -/
def strLeP (a b : String) : Prop := a.data ≤ b.data

instance : DecidableRel strLeP := fun a b => by unfold strLeP; infer_instance

instance : IsTotal String strLeP :=
  ⟨fun a b => IsTotal.total (r := (fun x y : List Char => x ≤ y)) a.data b.data⟩

instance : IsTrans String strLeP :=
  ⟨fun a b c hab hbc =>
    IsTrans.trans (r := (fun x y : List Char => x ≤ y)) a.data b.data c.data hab hbc⟩

/-- The sort order `["AEBODSYS_STD", "AEDECOD_STD", "TRT01A"]`. -/
def aeLe (a b : AeCountRow) : Prop :=
  a.AEBODSYS_STD.data < b.AEBODSYS_STD.data ∨
    (a.AEBODSYS_STD = b.AEBODSYS_STD ∧
      (a.AEDECOD_STD.data < b.AEDECOD_STD.data ∨
        (a.AEDECOD_STD = b.AEDECOD_STD ∧ strLeP a.TRT01A b.TRT01A)))

instance : DecidableRel aeLe := fun a b => by unfold aeLe strLeP; infer_instance

/-- The grouped-and-sorted AE counts of `create_ae_by_soc_table`: title-case
term and organ class, group by `(TRT01A, AEBODSYS_STD, AEDECOD_STD)`, count
distinct subjects, and sort. -/
def ae_counts (adae_safety : List AdaeRow) : List AeCountRow :=
  List.insertionSort aeLe
    ((uniqueFirst (adae_safety.map (fun r =>
        (r.TRT01A, titlecase r.AEBODSYS, titlecase r.AEDECOD)))).map (fun k =>
      ⟨k.1, k.2.1, k.2.2,
        (uniqueFirst ((adae_safety.filter (fun r =>
          r.TRT01A == k.1 && titlecase r.AEBODSYS == k.2.1 &&
            titlecase r.AEDECOD == k.2.2)).map (fun r => r.USUBJID))).length⟩))

/-- `ae_counts["AEBODSYS_STD"].unique().sort()`: the distinct system organ
classes, alphabetically. -/
def socList (adae_safety : List AdaeRow) : List String :=
  List.insertionSort strLeP (uniqueFirst ((ae_counts adae_safety).map (fun r => r.AEBODSYS_STD)))

/-- `ae_counts.filter(pl.col("AEBODSYS_STD") == soc)`. -/
def socData (adae_safety : List AdaeRow) (soc : String) : List AeCountRow :=
  (ae_counts adae_safety).filter (fun r => r.AEBODSYS_STD == soc)

/-- `soc_data["AEDECOD_STD"].unique().sort()`: the distinct AE terms of one
system organ class, alphabetically. -/
def termList (soc_data : List AeCountRow) : List String :=
  List.insertionSort strLeP (uniqueFirst (soc_data.map (fun r => r.AEDECOD_STD)))

/-- `count_data["n"][0] if count_data.height > 0 else 0`: the count of one
`term × treatment` cell, defaulting to `0` when no grouped row matches. -/
def termCount (soc_data : List AeCountRow) (ae_term trt : String) : ℕ :=
  match soc_data.filter (fun r => r.AEDECOD_STD == ae_term && r.TRT01A == trt) with
  | [] => 0
  | r :: _ => r.n

/-- One indented AE-term row of the AE-by-SOC table. -/
def aeTermRow (soc_data : List AeCountRow) (ae_term : String) (treatments : List String) :
    List (Option String) :=
  some ("  " ++ ae_term) :: treatments.map (fun trt => some (natStr (termCount soc_data ae_term trt)))

/-- `create_ae_by_soc_table` (`safety.py`): a top population-count row (the
lookup into `pop_counts` raises when a treatment is absent), a blank
separator row, then per system organ class (alphabetical) a header row
followed by the indented, alphabetically sorted AE-term rows. -/
def create_ae_by_soc_table (adae_safety : List AdaeRow) (pop_counts : List (String × ℕ))
    (treatments : List String) : Except PyErr PTable := do
  let popCells ← exceptMap (fun t =>
    match popLookup pop_counts t with
    | some nv => Except.ok (some (natStr nv))
    | none => Except.error PyErr.indexError) treatments
  let body := (socList adae_safety).flatMap (fun soc =>
    (some soc :: List.replicate treatments.length (some "")) ::
      (termList (socData adae_safety soc)).map (fun ae_term =>
        aeTermRow (socData adae_safety soc) ae_term treatments))
  mkTableE ("System Organ Class / Preferred Term" :: treatments)
    ((some "Participants in population" :: popCells) ::
      List.replicate (treatments.length + 1) (some "") :: body)

/-! ### `baseline.py` -/

/-- `get_value` (`baseline.py`): filter the frame on `TRT01P == treatment`
and return the last column of the first row, or the default `"0 (0.0%)"` when
no row matches.  A frame is modelled as `(TRT01P, last column)` pairs; the
cell is nullable, so a polars `null` cell comes back as `none` (Python
`None`). -/
def get_value (df : List (String × Option String)) (treatment : String) : Option String :=
  match df.filter (fun r => r.1 == treatment) with
  | [] => some "0 (0.0%)"
  | r :: _ => r.2

/-- The values of one continuous variable within one treatment group. -/
def contValues (adsl : List AdslRow) (t : String) (var : String) : List ℤ :=
  (adsl.filter (fun r => r.TRT01P == t)).map (fun r => r.contVal var)

/-- polars `mean().round(1)`: null on an empty group. -/
def meanR1 (xs : List ℤ) : Option Frac :=
  if xs.length = 0 then none
  else some (roundQ 1 ((Frac.sumList (xs.map Frac.ofInt)).div (Frac.ofNat xs.length)))

/-- The sample variance (`ddof = 1`) of a list of integers, exactly. -/
def sampleVar (xs : List ℤ) : Frac :=
  let m := (Frac.sumList (xs.map Frac.ofInt)).div (Frac.ofNat xs.length)
  (Frac.sumList (xs.map (fun x => ((Frac.ofInt x).sub m).mul ((Frac.ofInt x).sub m)))).div
    (Frac.ofNat (xs.length - 1))

/-- polars `std().round(2)` (`ddof = 1` default): null when the group has at
most one row — in particular a single-subject treatment group has a null
standard deviation. -/
def sdR2 (xs : List ℤ) : Option Frac :=
  if xs.length ≤ 1 then none else some (roundSqrtTo 2 (sampleVar xs))

/-- polars `median()`: null on an empty group; the midpoint of the two middle
values on an even-sized group (linear interpolation); always a float. -/
def medianQ (xs : List ℤ) : Option Frac :=
  let s := List.insertionSort (· ≤ ·) xs
  let n := s.length
  if n = 0 then none
  else if n % 2 = 1 then some (Frac.ofInt (s.getD (n / 2) 0))
  else some ((Frac.ofInt (s.getD (n / 2 - 1) 0 + s.getD (n / 2) 0)).div (Frac.ofNat 2))

/-- polars `min()` on an integer column: null on an empty group. -/
def listMin : List ℤ → Option ℤ
  | [] => none
  | a :: l => some (l.foldl min a)

/-- polars `max()` on an integer column: null on an empty group. -/
def listMax : List ℤ → Option ℤ
  | [] => none
  | a :: l => some (l.foldl max a)

/-- A row of `summarize_continuous` output (`minv`/`maxv` stand for the
source's `min`/`max` columns, renamed to avoid clashing with Lean's `min` and
`max`). -/
structure ContStats where
  TRT01P : String
  mean : Option Frac
  sd : Option Frac
  median : Option Frac
  minv : Option ℤ
  maxv : Option ℤ
  n : ℕ

/-- `summarize_continuous` (`baseline.py`): group by `TRT01P` and aggregate
rounded mean, rounded sample standard deviation, median, min, max and row
count of the requested variable. -/
def summarize_continuous (adsl : List AdslRow) (var : String) : List ContStats :=
  (uniqueFirst (adsl.map (fun r => r.TRT01P))).map (fun t =>
    let xs := contValues adsl t var
    ⟨t, meanR1 xs, sdR2 xs, medianQ xs, listMin xs, listMax xs, xs.length⟩)

/-- A row of `format_continuous_stats` output: the two display columns are
nullable because `pl.format` propagates a null input (a null `sd` makes
`mean_sd` null). -/
structure ContFmtRow where
  TRT01P : String
  mean_sd : Option String
  median_range : Option String

/-- `format_continuous_stats` (`baseline.py`): render
`"{mean} ({sd})"` and `"{median} [{min}, {max}]"` per row; `pl.format`
returns null as soon as one input is null. -/
def format_continuous_stats (stats : List ContStats) : List ContFmtRow :=
  stats.map (fun s =>
    ⟨s.TRT01P,
     match s.mean, s.sd with
     | some m, some d => some (decStr m ++ " (" ++ decStr d ++ ")")
     | _, _ => none,
     match s.median, s.minv, s.maxv with
     | some md, some lo, some hi =>
         some (decStr md ++ " [" ++ intStr lo ++ ", " ++ intStr hi ++ "]")
     | _, _, _ => none⟩)

/-- A row of `summarize_categorical` output: treatment group, (nullable)
category value, group×category count, treatment total, percentage. -/
structure CatStats where
  TRT01P : String
  cat : Option String
  len : ℕ
  total : ℕ
  pct : Frac

/-- `summarize_categorical` (`baseline.py`): group by `(TRT01P, var)` with
row counts, join the per-treatment totals, and compute
`round(100.0 * len / total, 1)`.  (A key only exists when some row carries
it, so `total ≥ 1` on every produced row.) -/
def summarize_categorical (adsl : List AdslRow) (var : String) : List CatStats :=
  (uniqueFirst (adsl.map (fun r => (r.TRT01P, r.catVal var)))).map (fun k =>
    let len := (adsl.filter (fun r => r.TRT01P == k.1 && r.catVal var == k.2)).length
    let total := (adsl.filter (fun r => r.TRT01P == k.1)).length
    ⟨k.1, k.2, len, total,
      roundQ 1 (((Frac.ofNat 100).mul (Frac.ofNat len)).div (Frac.ofNat total))⟩)

/-- A row of `format_categorical_stats` output. -/
structure CatFmtRow where
  TRT01P : String
  cat : Option String
  n_pct : String

/-- `format_categorical_stats` (`baseline.py`): render `"{len} ({pct}%)"`. -/
def format_categorical_stats (stats : List CatStats) : List CatFmtRow :=
  stats.map (fun s => ⟨s.TRT01P, s.cat, natStr s.len ++ " (" ++ decStr s.pct ++ "%)"⟩)

/-- The variable header label of `create_baseline_table`:
`f"{var.title()} (years)"` for `AGE`, `var.title()` otherwise. -/
def contLabel (var : String) : String :=
  if var = "AGE" then titlecase var ++ " (years)" else titlecase var

/-- One `Mean (SD)` cell of the baseline table:
`get_value(...).replace("0 (0.0%)", "")` — `none` models the
`AttributeError` of calling `.replace` on a `None` cell (the value a null
`mean_sd` produces). -/
def contMeanCell (fmt : List ContFmtRow) (t : String) : Option String :=
  (get_value (fmt.map (fun r => (r.TRT01P, r.mean_sd))) t).map
    (fun s => pyReplace s "0 (0.0%)" "")

/-- One `Median [Min, Max]` cell of the baseline table, like
`contMeanCell`. -/
def contMedianCell (fmt : List ContFmtRow) (t : String) : Option String :=
  (get_value (fmt.map (fun r => (r.TRT01P, r.median_range))) t).map
    (fun s => pyReplace s "0 (0.0%)" "")

/-- The three rows one continuous variable contributes to the baseline table:
a header row with the hard-coded three blank cells, a `Mean (SD)` row and a
`Median [Min, Max]` row.  The `Except` failure is the `AttributeError`
raised when a cell value is `None`. -/
def contSection (adsl : List AdslRow) (var : String) (treatments : List String) :
    Except PyErr (List (List (Option String))) :=
  match exceptMap (fun t =>
      match contMeanCell (format_continuous_stats (summarize_continuous adsl var)) t with
      | some s => Except.ok (some s)
      | none => Except.error PyErr.attributeError) treatments with
  | .error e => .error e
  | .ok mcells =>
      match exceptMap (fun t =>
          match contMedianCell (format_continuous_stats (summarize_continuous adsl var)) t with
          | some s => Except.ok (some s)
          | none => Except.error PyErr.attributeError) treatments with
      | .error e => .error e
      | .ok dcells =>
          .ok [[some (contLabel var), some "", some "", some ""],
               some "  Mean (SD)" :: mcells,
               some "  Median [Min, Max]" :: dcells]

/-- `adsl[var].unique(maintain_order=True).drop_nulls().to_list()`: the
distinct non-null categories of a variable, in first-occurrence order. -/
def categoriesOf (adsl : List AdslRow) (var : String) : List String :=
  (uniqueFirst (adsl.map (fun r => r.catVal var))).filterMap id

/-- `var_formatted.filter(pl.col(var) == category)` (a polars equality test
against a null cell is null, so null-category rows are filtered out). -/
def catData (fmt : List CatFmtRow) (c : String) : List CatFmtRow :=
  fmt.filter (fun r => r.cat == some c)

/-- The rows one categorical variable contributes to the baseline table: a
header row with the hard-coded three blank cells, then one indented row per
category in first-occurrence order, skipping (`continue`) any category absent
from the formatted statistics. -/
def catSection (adsl : List AdslRow) (var : String) (treatments : List String) :
    List (List (Option String)) :=
  let fmt := format_categorical_stats (summarize_categorical adsl var)
  [some (titlecase var), some "", some "", some ""] ::
    (categoriesOf adsl var).filterMap (fun c =>
      if some c ∈ uniqueFirst (fmt.map (fun r => r.cat)) then
        some (some ("  " ++ c) ::
          treatments.map (fun t =>
            get_value ((catData fmt c).map (fun r => (r.TRT01P, some r.n_pct))) t))
      else none)

/-- `create_baseline_table` (`baseline.py`): the continuous sections (whose
row building can raise an `AttributeError`), then the categorical sections,
assembled by `pl.DataFrame(..., schema=["Characteristic"] + treatments,
orient="row")`, which raises a `ShapeError` on any row whose length differs
from the schema's. -/
def create_baseline_table (adsl : List AdslRow) (continuous_vars categorical_vars : List String)
    (treatments : List String) : Except PyErr PTable := do
  let contSecs ← exceptMap (fun v => contSection adsl v treatments) continuous_vars
  let rows := contSecs.flatten ++ categorical_vars.flatMap (fun v => catSection adsl v treatments)
  mkTableE ("Characteristic" :: treatments) rows

/-! ### `population.py` -/

/-- The inner-join-plus-percentage step of `format_population_table`:
`pop_summary.join(totals, on="TRT01P")` keeps only the rows whose treatment
has a total (modelled via lookup — the keys of `totals` are unique in every
use), then `pct = round(100.0 * n / total, 1)` with full polars float
semantics, then the display string: the bare count on the population row,
`"{n} ({pct})"` otherwise. -/
def popFormatted (pop_summary : List PopRow) (totals : List (String × ℕ)) :
    List (String × String × String) :=
  pop_summary.filterMap (fun r =>
    (List.lookup r.TRT01P totals).map (fun tot =>
      let pct := PFloat.round 1
        (PFloat.div (PFloat.mul (.val (Frac.ofNat 100)) (.val (Frac.ofNat r.n)))
          (.val (Frac.ofNat tot)))
      let display :=
        if r.population = "Participants in population" then natStr r.n
        else natStr r.n ++ " (" ++ (PFloat.round 1 pct).castStr ++ ")"
      (r.TRT01P, r.population, display)))

/-- `format_population_table` (`population.py`): format, then
`pivot(values="display", index="population", on="TRT01P",
maintain_order=True)`: the column order is the first-occurrence order of the
treatment groups in the formatted frame, the row order the first-occurrence
order of the population labels; a missing `population × treatment`
combination pivots to a null cell. -/
def format_population_table (pop_summary : List PopRow) (totals : List (String × ℕ)) :
    PTable :=
  let fmtd := popFormatted pop_summary totals
  let cols := uniqueFirst (fmtd.map (fun x => x.1))
  let idx := uniqueFirst (fmtd.map (fun x => x.2.1))
  ⟨"population" :: cols,
   idx.map (fun p => some p :: cols.map (fun c =>
     (fmtd.find? (fun x => x.2.1 == p && x.1 == c)).map (fun x => x.2.2)))⟩

/-! ### Basic lemmas about the embedding's list primitives -/

lemma mem_uniqueFirstAux [DecidableEq α] (l : List α) :
    ∀ (seen : List α) (a : α), a ∈ uniqueFirstAux seen l ↔ a ∈ l ∧ a ∉ seen := by
  induction l with
  | nil => intro seen a; simp [uniqueFirstAux]
  | cons b l ih =>
      intro seen a
      by_cases hb : b ∈ seen
      · simp only [uniqueFirstAux, if_pos hb, ih, List.mem_cons]
        constructor
        · rintro ⟨h1, h2⟩; exact ⟨Or.inr h1, h2⟩
        · rintro ⟨rfl | h1, h2⟩
          · exact absurd hb h2
          · exact ⟨h1, h2⟩
      · simp only [uniqueFirstAux, if_neg hb, List.mem_cons, ih]
        by_cases hab : a = b
        · subst hab; tauto
        · tauto

lemma mem_uniqueFirst [DecidableEq α] {l : List α} {a : α} :
    a ∈ uniqueFirst l ↔ a ∈ l := by
  simp [uniqueFirst, mem_uniqueFirstAux]

lemma nodup_uniqueFirstAux [DecidableEq α] (l : List α) :
    ∀ seen : List α, (uniqueFirstAux seen l).Nodup := by
  induction l with
  | nil => intro seen; simp [uniqueFirstAux]
  | cons b l ih =>
      intro seen
      by_cases hb : b ∈ seen
      · simpa [uniqueFirstAux, if_pos hb] using ih seen
      · show (uniqueFirstAux seen (b :: l)).Nodup
        rw [show uniqueFirstAux seen (b :: l)
              = b :: uniqueFirstAux (b :: seen) l by simp [uniqueFirstAux, if_neg hb]]
        refine List.Nodup.cons ?_ (ih (b :: seen))
        intro hmem
        exact ((mem_uniqueFirstAux l (b :: seen) b).1 hmem).2 (List.mem_cons_self b seen)

lemma nodup_uniqueFirst [DecidableEq α] (l : List α) : (uniqueFirst l).Nodup :=
  nodup_uniqueFirstAux l []

lemma lookup_map_keys [DecidableEq α] (keys : List α) (f : α → β) (t : α)
    (hk : keys.Nodup) :
    List.lookup t (keys.map (fun k => (k, f k))) = if t ∈ keys then some (f t) else none := by
  induction keys with
  | nil => simp [List.lookup]
  | cons k ks ih =>
      rcases List.nodup_cons.1 hk with ⟨hknot, hks⟩
      by_cases h : t = k
      · subst h
        simp [List.lookup, if_pos (List.mem_cons_self t ks)]
      · have : (t == k) = false := beq_false_of_ne h
        simp only [List.map_cons, List.lookup, this, ih hks]
        by_cases ht : t ∈ ks
        · rw [if_pos ht, if_pos (List.mem_cons_of_mem _ ht)]
        · rw [if_neg ht, if_neg (fun hmem => by
            rcases List.mem_cons.1 hmem with h1 | h1
            · exact h h1
            · exact ht h1)]

lemma length_uniqueFirst_eq_card [DecidableEq α] (l : List α) :
    (uniqueFirst l).length = l.toFinset.card := by
  have h1 : (uniqueFirst l).toFinset = l.toFinset := by
    ext a
    simp [List.mem_toFinset, mem_uniqueFirst]
  calc (uniqueFirst l).length = (uniqueFirst l).toFinset.card := by
        rw [List.toFinset_card_of_nodup (nodup_uniqueFirst l)]
    _ = l.toFinset.card := by rw [h1]

lemma exceptMap_ok_forall {f : α → Except PyErr β} :
    ∀ {l : List α} {ys : List β}, exceptMap f l = .ok ys → ∀ x ∈ l, ∃ y, f x = .ok y := by
  intro l
  induction l with
  | nil => intro ys _ x hx; exact absurd hx (List.not_mem_nil x)
  | cons a l ih =>
      intro ys h x hx
      rw [exceptMap] at h
      cases hfa : f a with
      | error e => rw [hfa] at h; simp [Bind.bind, Except.bind] at h
      | ok b =>
          rw [hfa] at h
          cases hrest : exceptMap f l with
          | error e => rw [hrest] at h; simp [Bind.bind, Except.bind] at h
          | ok bs =>
              rcases List.mem_cons.1 hx with rfl | hx2
              · exact ⟨b, hfa⟩
              · exact ih hrest x hx2

lemma exceptMap_ok_eq_map {f : α → Except PyErr β} {g : α → β}
    (hfg : ∀ x y, f x = .ok y → y = g x) :
    ∀ {l : List α} {ys : List β}, exceptMap f l = .ok ys → ys = l.map g := by
  intro l
  induction l with
  | nil => intro ys h; rw [exceptMap] at h; cases h; rfl
  | cons a l ih =>
      intro ys h
      rw [exceptMap] at h
      cases hfa : f a with
      | error e => rw [hfa] at h; simp [Bind.bind, Except.bind] at h
      | ok b =>
          rw [hfa] at h
          cases hrest : exceptMap f l with
          | error e => rw [hrest] at h; simp [Bind.bind, Except.bind] at h
          | ok bs =>
              rw [hrest] at h
              simp only [Bind.bind, Except.bind, Except.ok.injEq] at h
              subst h
              rw [List.map_cons, hfg a b hfa, ih hrest]

/-! ### Claims -/

/-- C1: For every event-level dataset, every treatment-levels table, and
every optional filter condition, `count_participants` returns exactly one row
per treatment level of the treatment-levels table (in its order), and a
treatment level with no rows matching the condition gets an explicit count of
0; in particular on an empty dataset every required treatment level still
appears with count 0. -/
theorem c1_count_participants_zero_fill (df : List AdaeRow) (levels : List String)
    (cond : Option (AdaeRow → Bool)) :
    ((count_participants df levels cond).map Prod.fst = levels) ∧
    (∀ t ∈ levels, (condFilter cond df).filter (fun r => r.TRT01A == t) = [] →
      (t, 0) ∈ count_participants df levels cond) ∧
    (df = [] → count_participants df levels cond = levels.map (fun t => (t, 0))) := by
  refine ⟨?_, ?_, ?_⟩
  · show List.map Prod.fst (levels.map fun t =>
        (t, (List.lookup t (aeGroupCounts (condFilter cond df))).getD 0)) = levels
    rw [List.map_map]
    exact List.map_congr_left (fun a _ => rfl) |>.trans (List.map_id levels)
  · intro t ht hfilter
    have hlookup : List.lookup t (aeGroupCounts (condFilter cond df)) = none := by
      rw [aeGroupCounts, lookup_map_keys _ _ _ (nodup_uniqueFirst _)]
      rw [if_neg]
      intro hmem
      rcases List.mem_map.1 (mem_uniqueFirst.1 hmem) with ⟨r, hr, hrt⟩
      have : r ∈ (condFilter cond df).filter (fun r => r.TRT01A == t) :=
        List.mem_filter.2 ⟨hr, by simp [hrt]⟩
      rw [hfilter] at this
      exact absurd this (List.not_mem_nil r)
    refine List.mem_map.2 ⟨t, ht, ?_⟩
    simp [hlookup]
  · intro hdf
    subst hdf
    have : condFilter cond [] = [] := by cases cond <;> simp [condFilter]
    simp [count_participants, this, aeGroupCounts, uniqueFirst, uniqueFirstAux, List.lookup]

/-- C1 witness: on the empty dataset, the required level "Placebo" still
appears, with count 0. -/
theorem c1_witness : ("Placebo", 0) ∈ count_participants [] ["Placebo"] none :=
  (c1_count_participants_zero_fill [] ["Placebo"] none).2.1 "Placebo"
    (List.mem_cons_self _ _) rfl

/-- C5: For every event-level dataset and every filter condition, the
participant count `count_participants` pairs with a requested treatment level
equals the number of distinct subject identifiers among the rows of that
group satisfying the condition (so a participant with several qualifying
event rows counts once). -/
theorem c5_unique_subject_count (df : List AdaeRow) (levels : List String)
    (cond : Option (AdaeRow → Bool)) (t : String) (ht : t ∈ levels) :
    (t, (((condFilter cond df).filter (fun r => r.TRT01A == t)).map
          (fun r => r.USUBJID)).toFinset.card) ∈ count_participants df levels cond := by
  have hcard : (List.lookup t (aeGroupCounts (condFilter cond df))).getD 0 =
      (((condFilter cond df).filter (fun r => r.TRT01A == t)).map
        (fun r => r.USUBJID)).toFinset.card := by
    rw [aeGroupCounts, lookup_map_keys _ _ _ (nodup_uniqueFirst _)]
    by_cases hmem : t ∈ uniqueFirst ((condFilter cond df).map (fun r => r.TRT01A))
    · rw [if_pos hmem]
      simp only [Option.getD_some]
      exact length_uniqueFirst_eq_card _
    · rw [if_neg hmem]
      have hfilter : (condFilter cond df).filter (fun r => r.TRT01A == t) = [] := by
        rw [List.filter_eq_nil_iff]
        intro r hr hrt
        exact hmem (mem_uniqueFirst.2 (List.mem_map.2 ⟨r, hr, by
          simpa using hrt⟩))
      simp [hfilter]
  refine List.mem_map.2 ⟨t, ht, ?_⟩
  rw [hcard]

/-- C5 witness: one subject with two qualifying event rows counts once. -/
theorem c5_witness :
    ("A", 1) ∈ count_participants
      [⟨"s1", "A", "RASH", "SKIN", "N", "NONE", "", ""⟩,
       ⟨"s1", "A", "ACNE", "SKIN", "N", "NONE", "", ""⟩] ["A"] none := by
  have h := c5_unique_subject_count
    [⟨"s1", "A", "RASH", "SKIN", "N", "NONE", "", ""⟩,
     ⟨"s1", "A", "ACNE", "SKIN", "N", "NONE", "", ""⟩] ["A"] none "A"
    (List.mem_cons_self _ _)
  have e : ((((condFilter none
      [⟨"s1", "A", "RASH", "SKIN", "N", "NONE", "", ""⟩,
       ⟨"s1", "A", "ACNE", "SKIN", "N", "NONE", "", ""⟩]).filter
        (fun r => r.TRT01A == "A")).map (fun r => r.USUBJID)).toFinset.card) = 1 := by
    decide
  rw [e] at h
  exact h

/-- C2 counterexample: the population summary table's column header follows
the order in which treatment groups first appear in the aggregated summary,
not a supplied report order.  With the report order `["A", "B"]` but an
aggregation listing `"B"` first, the pivoted header is
`["population", "B", "A"]`. -/
theorem c2_counterexample :
    (format_population_table
      [⟨"B", 1, "Participants in population"⟩, ⟨"A", 1, "Participants in population"⟩]
      [("A", 1), ("B", 1)]).header = ["population", "B", "A"] ∧
    ["population", "B", "A"] ≠ ["population", "A", "B"] := by
  constructor
  · rfl
  · decide

/-- C2 (amended): the tables built from an explicit treatments list
(`create_baseline_table`, `create_ae_by_soc_table`) do put their columns in
the supplied order after the leading label column; the population summary
table takes no treatments list, and its column order is the first-occurrence
order of the treatment groups in the formatted aggregation. -/
theorem c2_amended_header_order :
    (∀ (adsl : List AdslRow) (cv kv trts : List String) (T : PTable),
      create_baseline_table adsl cv kv trts = .ok T →
      T.header = "Characteristic" :: trts) ∧
    (∀ (adae : List AdaeRow) (pop : List (String × ℕ)) (trts : List String) (T : PTable),
      create_ae_by_soc_table adae pop trts = .ok T →
      T.header = "System Organ Class / Preferred Term" :: trts) ∧
    (∀ (ps : List PopRow) (totals : List (String × ℕ)),
      (format_population_table ps totals).header =
        "population" :: uniqueFirst ((popFormatted ps totals).map (fun x => x.1))) := by
  refine ⟨?_, ?_, ?_⟩
  · intro adsl cv kv trts T h
    rw [create_baseline_table] at h
    cases hsecs : exceptMap (fun v => contSection adsl v trts) cv with
    | error e => rw [hsecs] at h; exact absurd h (by simp [Bind.bind, Except.bind])
    | ok secs =>
        rw [hsecs] at h
        simp only [Bind.bind, Except.bind, mkTableE] at h
        split at h
        · cases h; rfl
        · cases h
  · intro adae pop trts T h
    rw [create_ae_by_soc_table] at h
    cases hpop : exceptMap (fun t =>
        match popLookup pop t with
        | some nv => Except.ok (some (natStr nv))
        | none => Except.error PyErr.indexError) trts with
    | error e => rw [hpop] at h; exact absurd h (by simp [Bind.bind, Except.bind])
    | ok cells =>
        rw [hpop] at h
        simp only [Bind.bind, Except.bind, mkTableE] at h
        split at h
        · cases h; rfl
        · cases h
  · intro ps totals
    rfl

/-- C2 amended witness: a baseline table built with the supplied order
`["A", "B", "C"]` carries exactly that column order. -/
theorem c2_witness :
    ∃ T, create_baseline_table
        [⟨"A", fun _ => 30, fun v => if v = "SEX" then some "F" else none⟩]
        [] ["SEX"] ["A", "B", "C"] = .ok T ∧
      T.header = ["Characteristic", "A", "B", "C"] := by
  have h : create_baseline_table
      [⟨"A", fun _ => 30, fun v => if v = "SEX" then some "F" else none⟩]
      [] ["SEX"] ["A", "B", "C"] =
      .ok ⟨["Characteristic", "A", "B", "C"],
        [[some "Sex", some "", some "", some ""],
         [some "  F", some "1 (100.0%)", some "0 (0.0%)", some "0 (0.0%)"]]⟩ := rfl
  exact ⟨_, h, c2_amended_header_order.1 _ [] ["SEX"] ["A", "B", "C"] _ h⟩

/-- C3: evaluating `format_ae_summary` at a row whose population denominator
is literally 0 — the count 0 over the denominator 0 is IEEE `0.0 / 0`, i.e.
`NaN`; `fill_null(0)` does not replace a `NaN`, so the formatted output is
the non-numeric token `"(NaN)"`, not `"(0.0)"`. -/
theorem c3_nan_on_zero_denominator :
    (format_ae_summary [⟨"Drug", some 0, "With any adverse event"⟩]
      [("Drug", 0)]).map (fun r => r.pct_display) = ["(NaN)"] ∧
    (format_ae_summary [⟨"Drug", some 2, "With any adverse event"⟩]
      [("Drug", 0)]).map (fun r => r.pct_display) = ["(inf)"] ∧
    (format_ae_summary [⟨"Drug", some 2, "With any adverse event"⟩]
      [("Placebo", 10)]).map (fun r => r.pct_display) = ["(0.0)"] := by
  refine ⟨rfl, rfl, rfl⟩

/-- C4 counterexample: the population-count lookup of the AE-by-SOC table
does not fall back to the sentinel `"0 (0.0%)"` — with a treatment absent
from `pop_counts`, `create_ae_by_soc_table` raises an out-of-bounds error
instead of producing a table. -/
theorem c4_counterexample :
    create_ae_by_soc_table [] [] ["Drug"] = .error .indexError := rfl

/-- C4 (amended): `get_value` does return the sentinel `"0 (0.0%)"` for a
treatment group absent from a formatted-statistics frame, so the
baseline-table lookups always produce a populated cell; the population-count
lookup in the AE-by-SOC table, however, raises an index error whenever a
requested treatment is absent from `pop_counts`. -/
theorem c4_amended_get_value_default :
    (∀ (df : List (String × Option String)) (t : String),
      df.filter (fun r => r.1 == t) = [] → get_value df t = some "0 (0.0%)") ∧
    (∀ (pop : List (String × ℕ)) (t : String), popLookup pop t = none →
      ∀ (adae : List AdaeRow) (trts : List String), t ∈ trts →
        ∀ T, create_ae_by_soc_table adae pop trts ≠ .ok T) := by
  constructor
  · intro df t h
    rw [get_value, h]
  · intro pop t hnone adae trts hmem T hok
    rw [create_ae_by_soc_table] at hok
    cases hpop : exceptMap (fun t =>
        match popLookup pop t with
        | some nv => Except.ok (some (natStr nv))
        | none => Except.error PyErr.indexError) trts with
    | error e => rw [hpop] at hok; exact absurd hok (by simp [Bind.bind, Except.bind])
    | ok cells =>
        rcases exceptMap_ok_forall hpop t hmem with ⟨y, hy⟩
        rw [hnone] at hy
        exact absurd hy (by simp)

/-- C4 amended witness: a lookup for the absent group "B" yields the
sentinel. -/
theorem c4_witness : get_value [("A", some "1 (50.0%)")] "B" = some "0 (0.0%)" :=
  c4_amended_get_value_default.1 [("A", some "1 (50.0%)")] "B" rfl

/-- C9 counterexample: on the Scenario A dataset (Placebo ages 30 and 40,
Drug age 50), the Placebo median-range cell is `"35.0 [30, 40]"` — polars
interpolates the median of an even-sized group — not the claimed
`"30.0 [30, 40]"`. -/
theorem c9_counterexample :
    get_value ((format_continuous_stats (summarize_continuous
        [⟨"Placebo", fun _ => 30, fun _ => none⟩,
         ⟨"Placebo", fun _ => 40, fun _ => none⟩,
         ⟨"Drug", fun _ => 50, fun _ => none⟩] "AGE")).map
      (fun r => (r.TRT01P, r.median_range))) "Placebo" = some "35.0 [30, 40]" ∧
    (some "35.0 [30, 40]" : Option String) ≠ some "30.0 [30, 40]" := by
  exact ⟨rfl, by decide⟩

/-- C9 (amended): on the Scenario A dataset the median-range row holds
exactly `"35.0 [30, 40]"` for Placebo (the interpolated median of `[30, 40]`
is `35.0`) and `"50.0 [50, 50]"` for Drug. -/
theorem c9_amended_median_range :
    get_value ((format_continuous_stats (summarize_continuous
        [⟨"Placebo", fun _ => 30, fun _ => none⟩,
         ⟨"Placebo", fun _ => 40, fun _ => none⟩,
         ⟨"Drug", fun _ => 50, fun _ => none⟩] "AGE")).map
      (fun r => (r.TRT01P, r.median_range))) "Placebo" = some "35.0 [30, 40]" ∧
    get_value ((format_continuous_stats (summarize_continuous
        [⟨"Placebo", fun _ => 30, fun _ => none⟩,
         ⟨"Placebo", fun _ => 40, fun _ => none⟩,
         ⟨"Drug", fun _ => 50, fun _ => none⟩] "AGE")).map
      (fun r => (r.TRT01P, r.median_range))) "Drug" = some "50.0 [50, 50]" := by
  exact ⟨rfl, rfl⟩

lemma filterMap_ite_eq_filter_map {p : α → Prop} [DecidablePred p] (g : α → β) :
    ∀ l : List α,
      l.filterMap (fun c => if p c then some (g c) else none) =
        (l.filter (fun c => p c)).map g := by
  intro l
  induction l with
  | nil => rfl
  | cons a l ih =>
      by_cases h : p a
      · simp [List.filterMap_cons, if_pos h, List.filter_cons, h, ih]
      · simp [List.filterMap_cons, if_neg h, List.filter_cons, h, ih]

/-- C6: For every subject-level dataset and categorical variable, the
category rows of the categorical block are exactly the categories in
first-occurrence order of the source dataset, each rendered as an indented
label plus one looked-up cell per treatment, with any category absent from
the formatted statistics skipped entirely. -/
theorem c6_category_first_occurrence_order (adsl : List AdslRow) (var : String)
    (trts : List String) :
    catSection adsl var trts =
      [some (titlecase var), some "", some "", some ""] ::
        ((categoriesOf adsl var).filter (fun c =>
            some c ∈ (format_categorical_stats (summarize_categorical adsl var)).map
              (fun r => r.cat))).map
          (fun c => some ("  " ++ c) ::
            trts.map (fun t =>
              get_value ((catData (format_categorical_stats (summarize_categorical adsl var)) c).map
                (fun r => (r.TRT01P, some r.n_pct))) t)) := by
  rw [catSection]
  congr 1
  have hcond : ∀ c : String,
      (if some c ∈ uniqueFirst ((format_categorical_stats (summarize_categorical adsl var)).map
          (fun r => r.cat)) then
        some (some ("  " ++ c) ::
          trts.map (fun t =>
            get_value ((catData (format_categorical_stats (summarize_categorical adsl var)) c).map
              (fun r => (r.TRT01P, some r.n_pct))) t))
      else none) =
      (if some c ∈ (format_categorical_stats (summarize_categorical adsl var)).map
          (fun r => r.cat) then
        some (some ("  " ++ c) ::
          trts.map (fun t =>
            get_value ((catData (format_categorical_stats (summarize_categorical adsl var)) c).map
              (fun r => (r.TRT01P, some r.n_pct))) t))
      else none) := by
    intro c
    by_cases h : some c ∈ (format_categorical_stats (summarize_categorical adsl var)).map
        (fun r => r.cat)
    · rw [if_pos h, if_pos (mem_uniqueFirst.2 h)]
    · rw [if_neg h, if_neg (fun hh => h (mem_uniqueFirst.1 hh))]
  calc (categoriesOf adsl var).filterMap _
      = (categoriesOf adsl var).filterMap (fun c =>
          if some c ∈ (format_categorical_stats (summarize_categorical adsl var)).map
              (fun r => r.cat) then
            some (some ("  " ++ c) ::
              trts.map (fun t =>
                get_value ((catData (format_categorical_stats (summarize_categorical adsl var)) c).map
                  (fun r => (r.TRT01P, some r.n_pct))) t))
          else none) := List.filterMap_congr (fun c _ => hcond c)
    _ = _ := filterMap_ite_eq_filter_map _ _

lemma data_append (a b : String) : (a ++ b).data = a.data ++ b.data := rfl

lemma digitChar_ne_pct : ∀ d, d < 10 → digitChar d ≠ '%' := by decide

lemma natCharsAux_ne_pct : ∀ (fuel n : ℕ), ∀ c ∈ natCharsAux fuel n, c ≠ '%' := by
  intro fuel
  induction fuel with
  | zero => intro n c hc; simp [natCharsAux] at hc
  | succ fuel ih =>
      intro n c hc
      rw [natCharsAux] at hc
      by_cases h : n < 10
      · rw [if_pos h] at hc
        rcases List.mem_singleton.1 hc with rfl
        exact digitChar_ne_pct n h
      · rw [if_neg h] at hc
        rcases List.mem_append.1 hc with h1 | h1
        · exact ih (n / 10) c h1
        · rcases List.mem_singleton.1 h1 with rfl
          exact digitChar_ne_pct (n % 10) (Nat.mod_lt n (by omega))

lemma natStr_ne_pct (n : ℕ) : ∀ c ∈ (natStr n).data, c ≠ '%' :=
  fun c hc => natCharsAux_ne_pct (n + 1) n c hc

lemma natStrPad_ne_pct (k n : ℕ) : ∀ c ∈ (natStrPad k n).data, c ≠ '%' := by
  intro c hc
  rcases List.mem_append.1 hc with h1 | h1
  · rcases List.eq_of_mem_replicate h1 with rfl
    decide
  · exact natCharsAux_ne_pct (n + 1) n c h1

lemma intStr_ne_pct (z : ℤ) : ∀ c ∈ (intStr z).data, c ≠ '%' := by
  intro c hc
  rw [intStr] at hc
  by_cases h : z < 0
  · rw [if_pos h, data_append] at hc
    rcases List.mem_append.1 hc with h1 | h1
    · rcases List.mem_singleton.1 h1 with rfl
      decide
    · exact natStr_ne_pct _ c h1
  · rw [if_neg h] at hc
    exact natStr_ne_pct _ c hc

lemma decStr_ne_pct (q : Frac) : ∀ c ∈ (decStr q).data, c ≠ '%' := by
  have hsgn : ∀ c ∈ ((if q.num < 0 then ("-" : String) else "")).data, c ≠ '%' := by
    by_cases h : q.num < 0
    · rw [if_pos h]; decide
    · rw [if_neg h]; decide
  intro c hc
  rw [decStr] at hc
  split at hc
  · split at hc
    · simp only [data_append, List.mem_append] at hc
      rcases hc with (h1 | h1) | h1
      · exact hsgn c h1
      · exact natStr_ne_pct _ c h1
      · fin_cases h1 <;> decide
    · simp only [data_append, List.mem_append] at hc
      rcases hc with ((h1 | h1) | h1) | h1
      · exact hsgn c h1
      · exact natStr_ne_pct _ c h1
      · fin_cases h1 <;> decide
      · exact natStrPad_ne_pct _ _ c h1
  · simp only [data_append, List.mem_append] at hc
    rcases hc with ((h1 | h1) | h1) | h1
    · exact hsgn c h1
    · exact natStr_ne_pct _ c h1
    · fin_cases h1 <;> decide
    · exact natStr_ne_pct _ c h1

lemma charsStartWith_subset :
    ∀ (p s : List Char), charsStartWith p s = true → ∀ a ∈ p, a ∈ s := by
  intro p
  induction p with
  | nil => intro s _ a ha; exact absurd ha (List.not_mem_nil a)
  | cons b p ih =>
      intro s h a ha
      cases s with
      | nil => simp [charsStartWith] at h
      | cons c cs =>
          rw [charsStartWith, Bool.and_eq_true] at h
          rcases List.mem_cons.1 ha with rfl | ha2
          · have hbc : a = c := by
              have h1 := h.1
              rwa [beq_iff_eq] at h1
            rw [hbc]
            exact List.mem_cons_self c cs
          · exact List.mem_cons_of_mem c (ih cs h.2 a ha2)

lemma replaceCharsAux_no_pct (pat rep : List Char) (hp : '%' ∈ pat) :
    ∀ (fuel : ℕ) (s : List Char), (∀ a ∈ s, a ≠ '%') → replaceCharsAux pat rep fuel s = s := by
  intro fuel
  induction fuel with
  | zero => intro s _; cases s <;> rfl
  | succ fuel ih =>
      intro s hs
      cases s with
      | nil => rfl
      | cons c cs =>
          rw [replaceCharsAux]
          have hcond : (charsStartWith pat (c :: cs) && !pat.isEmpty) = false := by
            by_cases hsw : charsStartWith pat (c :: cs) = true
            · exact absurd (charsStartWith_subset pat (c :: cs) hsw '%' hp)
                (fun hmem => hs '%' hmem rfl)
            · simp [Bool.and_eq_false_iff]
              intro h; exact absurd h hsw
          rw [hcond]
          simp only [Bool.false_eq_true, if_false]
          exact congrArg (c :: ·) (ih cs (fun a ha => hs a (List.mem_cons_of_mem c ha)))

lemma pyReplace_no_pct (s pat rep : String) (hp : '%' ∈ pat.data)
    (hs : ∀ a ∈ s.data, a ≠ '%') : pyReplace s pat rep = s := by
  rw [pyReplace, replaceCharsAux_no_pct pat.data rep.data hp s.data.length s.data hs]

lemma ne_of_pct_mem {s t : String} (hp : '%' ∈ t.data) (hs : ∀ a ∈ s.data, a ≠ '%') :
    s ≠ t := by
  intro h
  subst h
  exact hs '%' hp rfl

lemma get_value_cases (df : List (String × Option String)) (t : String) :
    get_value df t = some "0 (0.0%)" ∨
      ∃ r ∈ df, r.1 = t ∧ get_value df t = r.2 := by
  rw [get_value]
  cases hf : df.filter (fun r => r.1 == t) with
  | nil => exact Or.inl rfl
  | cons r rest =>
      refine Or.inr ⟨r, ?_, ?_, rfl⟩
      · have : r ∈ df.filter (fun r => r.1 == t) := hf ▸ List.mem_cons_self r rest
        exact (List.mem_filter.1 this).1
      · have : r ∈ df.filter (fun r => r.1 == t) := hf ▸ List.mem_cons_self r rest
        have := (List.mem_filter.1 this).2
        rwa [beq_iff_eq] at this

lemma get_value_absent (df : List (String × Option String)) (t : String)
    (h : ∀ r ∈ df, r.1 ≠ t) : get_value df t = some "0 (0.0%)" := by
  rw [get_value]
  have : df.filter (fun r => r.1 == t) = [] := by
    rw [List.filter_eq_nil_iff]
    intro r hr hbeq
    exact h r hr (by rwa [beq_iff_eq] at hbeq)
  rw [this]

lemma mean_sd_no_pct (stats : List ContStats) (r : ContFmtRow)
    (hr : r ∈ format_continuous_stats stats) (s : String) (hs : r.mean_sd = some s) :
    ∀ a ∈ s.data, a ≠ '%' := by
  rw [format_continuous_stats] at hr
  rcases List.mem_map.1 hr with ⟨st, _, hst⟩
  subst hst
  simp only at hs
  rcases hm : st.mean with _ | m
  · rw [hm] at hs; simp at hs
  · rcases hd : st.sd with _ | d
    · rw [hm, hd] at hs; simp at hs
    · rw [hm, hd] at hs
      simp only [Option.some.injEq] at hs
      subst hs
      intro a ha
      simp only [data_append, List.mem_append] at ha
      rcases ha with ((h1 | h1) | h1) | h1
      · exact decStr_ne_pct m a h1
      · fin_cases h1 <;> decide
      · exact decStr_ne_pct d a h1
      · fin_cases h1; decide

lemma median_range_no_pct (stats : List ContStats) (r : ContFmtRow)
    (hr : r ∈ format_continuous_stats stats) (s : String) (hs : r.median_range = some s) :
    ∀ a ∈ s.data, a ≠ '%' := by
  rw [format_continuous_stats] at hr
  rcases List.mem_map.1 hr with ⟨st, _, hst⟩
  subst hst
  simp only at hs
  rcases hm : st.median with _ | md
  · rw [hm] at hs; simp at hs
  · rcases hlo : st.minv with _ | lo
    · rw [hm, hlo] at hs; simp at hs
    · rcases hhi : st.maxv with _ | hi
      · rw [hm, hlo, hhi] at hs; simp at hs
      · rw [hm, hlo, hhi] at hs
        simp only [Option.some.injEq] at hs
        subst hs
        intro a ha
        simp only [data_append, List.mem_append] at ha
        rcases ha with ((((h1 | h1) | h1) | h1) | h1) | h1
        · exact decStr_ne_pct md a h1
        · fin_cases h1 <;> decide
        · exact intStr_ne_pct lo a h1
        · fin_cases h1 <;> decide
        · exact intStr_ne_pct hi a h1
        · fin_cases h1; decide

lemma fmt_trt_mem (stats : List ContStats) (r : ContFmtRow)
    (hr : r ∈ format_continuous_stats stats) :
    r.TRT01P ∈ stats.map (fun s => s.TRT01P) := by
  rw [format_continuous_stats] at hr
  rcases List.mem_map.1 hr with ⟨st, hst, hmap⟩
  subst hmap
  exact List.mem_map.2 ⟨st, hst, rfl⟩

lemma contMeanCell_absent (stats : List ContStats) (t : String)
    (h : t ∉ stats.map (fun s => s.TRT01P)) :
    contMeanCell (format_continuous_stats stats) t = some "" := by
  rw [contMeanCell, get_value_absent]
  · rfl
  · intro r hr
    rcases List.mem_map.1 hr with ⟨row, hrow, hpair⟩
    subst hpair
    intro hteq
    exact h (hteq ▸ fmt_trt_mem stats row hrow)

lemma contMedianCell_absent (stats : List ContStats) (t : String)
    (h : t ∉ stats.map (fun s => s.TRT01P)) :
    contMedianCell (format_continuous_stats stats) t = some "" := by
  rw [contMedianCell, get_value_absent]
  · rfl
  · intro r hr
    rcases List.mem_map.1 hr with ⟨row, hrow, hpair⟩
    subst hpair
    intro hteq
    exact h (hteq ▸ fmt_trt_mem stats row hrow)

lemma contMeanCell_ne_sentinel (stats : List ContStats) (t : String) :
    contMeanCell (format_continuous_stats stats) t ≠ some "0 (0.0%)" := by
  rw [contMeanCell]
  rcases get_value_cases ((format_continuous_stats stats).map
      (fun r => (r.TRT01P, r.mean_sd))) t with h | ⟨pair, hmem, _, h⟩
  · rw [h]; decide
  · rw [h]
    rcases List.mem_map.1 hmem with ⟨row, hrow, hpair⟩
    subst hpair
    show Option.map (fun s => pyReplace s "0 (0.0%)" "") row.mean_sd ≠ some "0 (0.0%)"
    rcases hms : row.mean_sd with _ | s
    · simp
    · have hnopct := mean_sd_no_pct stats row hrow s hms
      show some (pyReplace s "0 (0.0%)" "") ≠ some "0 (0.0%)"
      rw [pyReplace_no_pct s "0 (0.0%)" "" (by decide) hnopct]
      intro hcontra
      exact ne_of_pct_mem (by decide) hnopct (Option.some.inj hcontra)

lemma contMedianCell_ne_sentinel (stats : List ContStats) (t : String) :
    contMedianCell (format_continuous_stats stats) t ≠ some "0 (0.0%)" := by
  rw [contMedianCell]
  rcases get_value_cases ((format_continuous_stats stats).map
      (fun r => (r.TRT01P, r.median_range))) t with h | ⟨pair, hmem, _, h⟩
  · rw [h]; decide
  · rw [h]
    rcases List.mem_map.1 hmem with ⟨row, hrow, hpair⟩
    subst hpair
    show Option.map (fun s => pyReplace s "0 (0.0%)" "") row.median_range ≠ some "0 (0.0%)"
    rcases hms : row.median_range with _ | s
    · simp
    · have hnopct := median_range_no_pct stats row hrow s hms
      show some (pyReplace s "0 (0.0%)" "") ≠ some "0 (0.0%)"
      rw [pyReplace_no_pct s "0 (0.0%)" "" (by decide) hnopct]
      intro hcontra
      exact ne_of_pct_mem (by decide) hnopct (Option.some.inj hcontra)

/-- C7: For every continuous variable whose section building succeeds with a
3-element treatments list, the section is, in order: a header row whose
treatment-group cells (one per treatment) are all blank, a `Mean (SD)` row,
and a `Median [Min, Max]` row; in the two statistic rows a treatment group
with no data renders as the empty string (the sentinel blanked out), and no
cell ever renders as the sentinel `"0 (0.0%)"` itself. -/
theorem c7_continuous_block (adsl : List AdslRow) (var : String) (trts : List String)
    (rows : List (List (Option String))) (h3 : trts.length = 3)
    (hok : contSection adsl var trts = .ok rows) :
    rows = [some (contLabel var) :: List.replicate trts.length (some ""),
            some "  Mean (SD)" :: trts.map (fun t =>
              contMeanCell (format_continuous_stats (summarize_continuous adsl var)) t),
            some "  Median [Min, Max]" :: trts.map (fun t =>
              contMedianCell (format_continuous_stats (summarize_continuous adsl var)) t)] ∧
    (∀ t ∈ trts, t ∉ (summarize_continuous adsl var).map (fun s => s.TRT01P) →
      contMeanCell (format_continuous_stats (summarize_continuous adsl var)) t = some "" ∧
      contMedianCell (format_continuous_stats (summarize_continuous adsl var)) t = some "") ∧
    (∀ t ∈ trts,
      contMeanCell (format_continuous_stats (summarize_continuous adsl var)) t ≠
        some "0 (0.0%)" ∧
      contMedianCell (format_continuous_stats (summarize_continuous adsl var)) t ≠
        some "0 (0.0%)") := by
  refine ⟨?_, ?_, ?_⟩
  · rw [contSection] at hok
    cases hm : exceptMap (fun t =>
        match contMeanCell (format_continuous_stats (summarize_continuous adsl var)) t with
        | some s => Except.ok (some s)
        | none => Except.error PyErr.attributeError) trts with
    | error e => rw [hm] at hok; cases hok
    | ok mcells =>
        rw [hm] at hok
        cases hd : exceptMap (fun t =>
            match contMedianCell (format_continuous_stats (summarize_continuous adsl var)) t with
            | some s => Except.ok (some s)
            | none => Except.error PyErr.attributeError) trts with
        | error e => rw [hd] at hok; cases hok
        | ok dcells =>
            rw [hd] at hok
            cases hok
            have hmc : mcells = trts.map (fun t =>
                contMeanCell (format_continuous_stats (summarize_continuous adsl var)) t) := by
              refine exceptMap_ok_eq_map ?_ hm
              intro x y hxy
              rcases hx : contMeanCell (format_continuous_stats (summarize_continuous adsl var)) x with _ | s
              · rw [hx] at hxy; cases hxy
              · rw [hx] at hxy; cases hxy; rfl
            have hdc : dcells = trts.map (fun t =>
                contMedianCell (format_continuous_stats (summarize_continuous adsl var)) t) := by
              refine exceptMap_ok_eq_map ?_ hd
              intro x y hxy
              rcases hx : contMedianCell (format_continuous_stats (summarize_continuous adsl var)) x with _ | s
              · rw [hx] at hxy; cases hxy
              · rw [hx] at hxy; cases hxy; rfl
            rw [hmc, hdc, h3]
            rfl
  · intro t _ habs
    exact ⟨contMeanCell_absent _ t habs, contMedianCell_absent _ t habs⟩
  · intro t _
    exact ⟨contMeanCell_ne_sentinel _ t, contMedianCell_ne_sentinel _ t⟩

/-- C7 witness: a dataset with a single treatment group "A" (two subjects,
ages 30 and 40) and the treatments list `["A", "B", "C"]` — the section's
evaluated rows have the claimed shape, with the absent groups B and C
rendered as blanks (never the sentinel). -/
theorem c7_witness :
    ([[some "Age (years)", some "", some "", some ""],
      [some "  Mean (SD)", some "35.0 (7.07)", some "", some ""],
      [some "  Median [Min, Max]", some "35.0 [30, 40]", some "", some ""]] :
        List (List (Option String))) =
      [some (contLabel "AGE") :: List.replicate (["A", "B", "C"] : List String).length (some ""),
       some "  Mean (SD)" :: (["A", "B", "C"] : List String).map (fun t =>
         contMeanCell (format_continuous_stats (summarize_continuous
           [⟨"A", fun _ => 30, fun _ => none⟩, ⟨"A", fun _ => 40, fun _ => none⟩] "AGE")) t),
       some "  Median [Min, Max]" :: (["A", "B", "C"] : List String).map (fun t =>
         contMedianCell (format_continuous_stats (summarize_continuous
           [⟨"A", fun _ => 30, fun _ => none⟩, ⟨"A", fun _ => 40, fun _ => none⟩] "AGE")) t)] :=
  (c7_continuous_block
    [⟨"A", fun _ => 30, fun _ => none⟩, ⟨"A", fun _ => 40, fun _ => none⟩]
    "AGE" ["A", "B", "C"] _ rfl rfl).1

lemma filter_map_keys_eq {κ β : Type} [DecidableEq κ] (mk : κ → β) (p : β → Bool) (k0 : κ)
    (hp : ∀ k, p (mk k) = true ↔ k = k0) :
    ∀ keys : List κ, keys.Nodup →
      (keys.map mk).filter p = if k0 ∈ keys then [mk k0] else [] := by
  intro keys
  induction keys with
  | nil => intro _; simp
  | cons k ks ih =>
      intro hk
      rcases List.nodup_cons.1 hk with ⟨hknot, hks⟩
      rw [List.map_cons, List.filter_cons]
      by_cases hpk : p (mk k) = true
      · have hkk0 : k = k0 := (hp k).1 hpk
        subst hkk0
        rw [if_pos (List.mem_cons_self k ks), hpk]
        simp only [if_true]
        have hrest : (ks.map mk).filter p = [] := by
          rw [List.filter_eq_nil_iff]
          intro b hb hpb
          rcases List.mem_map.1 hb with ⟨k2, hk2, hmk⟩
          subst hmk
          exact hknot ((hp k2).1 hpb ▸ hk2)
        rw [hrest]
      · have hkk0 : k ≠ k0 := fun h => hpk ((hp k).2 h)
        rw [Bool.not_eq_true] at hpk
        rw [hpk]
        simp only [Bool.false_eq_true, if_false]
        rw [ih hks]
        by_cases hmem : k0 ∈ ks
        · rw [if_pos hmem, if_pos (List.mem_cons_of_mem k hmem)]
        · rw [if_neg hmem, if_neg (fun h => by
            rcases List.mem_cons.1 h with h1 | h1
            · exact hkk0 h1.symm
            · exact hmem h1)]

lemma socList_sorted (adae : List AdaeRow) : List.Sorted strLeP (socList adae) :=
  List.sorted_insertionSort _ _

lemma termList_sorted (soc_data : List AeCountRow) :
    List.Sorted strLeP (termList soc_data) :=
  List.sorted_insertionSort _ _

lemma mem_ae_counts (adae : List AdaeRow) (row : AeCountRow) :
    row ∈ ae_counts adae ↔
      ∃ k ∈ uniqueFirst (adae.map (fun r =>
          (r.TRT01A, titlecase r.AEBODSYS, titlecase r.AEDECOD))),
        row = ⟨k.1, k.2.1, k.2.2,
          (uniqueFirst ((adae.filter (fun r =>
            r.TRT01A == k.1 && titlecase r.AEBODSYS == k.2.1 &&
              titlecase r.AEDECOD == k.2.2)).map (fun r => r.USUBJID))).length⟩ := by
  rw [ae_counts]
  rw [(List.perm_insertionSort aeLe _).mem_iff]
  constructor
  · intro h
    rcases List.mem_map.1 h with ⟨k, hk, hrow⟩
    exact ⟨k, hk, hrow.symm⟩
  · rintro ⟨k, hk, hrow⟩
    exact List.mem_map.2 ⟨k, hk, hrow.symm⟩

lemma socList_mem (adae : List AdaeRow) (s : String) :
    s ∈ socList adae ↔ ∃ r ∈ adae, titlecase r.AEBODSYS = s := by
  rw [socList, (List.perm_insertionSort _ _).mem_iff, mem_uniqueFirst]
  constructor
  · intro h
    rcases List.mem_map.1 h with ⟨row, hrow, hsoc⟩
    rcases (mem_ae_counts adae row).1 hrow with ⟨k, hk, hkeq⟩
    rcases List.mem_map.1 (mem_uniqueFirst.1 hk) with ⟨r, hr, hkey⟩
    refine ⟨r, hr, ?_⟩
    have : row.AEBODSYS_STD = k.2.1 := by rw [hkeq]
    rw [← hsoc, this, ← hkey]
  · rintro ⟨r, hr, hsoc⟩
    have hk : (r.TRT01A, titlecase r.AEBODSYS, titlecase r.AEDECOD) ∈
        uniqueFirst (adae.map (fun r =>
          (r.TRT01A, titlecase r.AEBODSYS, titlecase r.AEDECOD))) :=
      mem_uniqueFirst.2 (List.mem_map.2 ⟨r, hr, rfl⟩)
    refine List.mem_map.2 ⟨⟨r.TRT01A, titlecase r.AEBODSYS, titlecase r.AEDECOD,
      (uniqueFirst ((adae.filter (fun r2 =>
        r2.TRT01A == r.TRT01A && titlecase r2.AEBODSYS == titlecase r.AEBODSYS &&
          titlecase r2.AEDECOD == titlecase r.AEDECOD)).map (fun r2 => r2.USUBJID))).length⟩,
      ?_, hsoc⟩
    exact (mem_ae_counts adae _).2 ⟨_, hk, rfl⟩

lemma termCount_eq_distinct_subjects (adae : List AdaeRow) (soc ae_term trt : String) :
    termCount (socData adae soc) ae_term trt =
      (uniqueFirst ((adae.filter (fun r => r.TRT01A == trt &&
        titlecase r.AEBODSYS == soc && titlecase r.AEDECOD == ae_term)).map
          (fun r => r.USUBJID))).length := by
  rw [termCount, socData, List.filter_filter]
  have hperm := (List.perm_insertionSort aeLe
    ((uniqueFirst (adae.map (fun r =>
        (r.TRT01A, titlecase r.AEBODSYS, titlecase r.AEDECOD)))).map (fun k =>
      (⟨k.1, k.2.1, k.2.2,
        (uniqueFirst ((adae.filter (fun r =>
          r.TRT01A == k.1 && titlecase r.AEBODSYS == k.2.1 &&
            titlecase r.AEDECOD == k.2.2)).map (fun r => r.USUBJID))).length⟩ : AeCountRow)))).filter
    (fun r => (r.AEDECOD_STD == ae_term && r.TRT01A == trt) && r.AEBODSYS_STD == soc)
  have hgrouped := filter_map_keys_eq
    (fun k : String × String × String =>
      (⟨k.1, k.2.1, k.2.2,
        (uniqueFirst ((adae.filter (fun r =>
          r.TRT01A == k.1 && titlecase r.AEBODSYS == k.2.1 &&
            titlecase r.AEDECOD == k.2.2)).map (fun r => r.USUBJID))).length⟩ : AeCountRow))
    (fun r => (r.AEDECOD_STD == ae_term && r.TRT01A == trt) && r.AEBODSYS_STD == soc)
    (trt, soc, ae_term)
    (by
      intro k
      simp only [Bool.and_eq_true, beq_iff_eq]
      constructor
      · rintro ⟨⟨h1, h2⟩, h3⟩
        rcases k with ⟨k1, k2, k3⟩
        simp only at h1 h2 h3
        rw [Prod.mk.injEq, Prod.mk.injEq]
        exact ⟨h2, h3, h1⟩
      · rintro rfl
        exact ⟨⟨rfl, rfl⟩, rfl⟩)
    (uniqueFirst (adae.map (fun r =>
      (r.TRT01A, titlecase r.AEBODSYS, titlecase r.AEDECOD))))
    (nodup_uniqueFirst _)
  rw [hgrouped] at hperm
  show (match (ae_counts adae).filter (fun r =>
      (r.AEDECOD_STD == ae_term && r.TRT01A == trt) && r.AEBODSYS_STD == soc) with
    | [] => 0
    | r :: _ => r.n) = _
  rw [ae_counts] at *
  by_cases hmem : ((trt, soc, ae_term) : String × String × String) ∈
      uniqueFirst (adae.map (fun r =>
        (r.TRT01A, titlecase r.AEBODSYS, titlecase r.AEDECOD)))
  · rw [if_pos hmem] at hperm
    rw [hperm.eq_singleton]
  · rw [if_neg hmem] at hperm
    rw [List.Perm.eq_nil hperm]
    have hfil : adae.filter (fun r => r.TRT01A == trt &&
        titlecase r.AEBODSYS == soc && titlecase r.AEDECOD == ae_term) = [] := by
      rw [List.filter_eq_nil_iff]
      intro r hr hpr
      simp only [Bool.and_eq_true, beq_iff_eq] at hpr
      exact hmem (mem_uniqueFirst.2 (List.mem_map.2 ⟨r, hr, by
        rw [hpr.1.1, hpr.1.2, hpr.2]⟩))
    rw [hfil]
    rfl

/-- C8: For every event-level dataset, population counts and treatment list
for which `create_ae_by_soc_table` succeeds, the table consists of: a top row
of per-group population counts (count strings only — no percentage, no
indentation), one blank separator row, then for each system organ class in
alphabetical order a header row with blank group cells followed by one
indented row per AE term of that class in alphabetical order; each term cell
is the count of distinct subjects with a matching event, so a `term × group`
combination with no events renders as the string `"0"`. -/
theorem c8_ae_by_soc_structure (adae : List AdaeRow) (pop : List (String × ℕ))
    (trts : List String) (T : PTable)
    (hok : create_ae_by_soc_table adae pop trts = .ok T) :
    T.header = "System Organ Class / Preferred Term" :: trts ∧
    T.rows = (some "Participants in population" ::
        trts.map (fun t => some (natStr ((popLookup pop t).getD 0)))) ::
      List.replicate (trts.length + 1) (some "") ::
      (socList adae).flatMap (fun soc =>
        (some soc :: List.replicate trts.length (some "")) ::
          (termList (socData adae soc)).map (fun ae_term =>
            aeTermRow (socData adae soc) ae_term trts)) ∧
    List.Sorted strLeP (socList adae) ∧
    (∀ s, s ∈ socList adae ↔ ∃ r ∈ adae, titlecase r.AEBODSYS = s) ∧
    (∀ soc, List.Sorted strLeP (termList (socData adae soc))) ∧
    (∀ soc ae_term trt,
      termCount (socData adae soc) ae_term trt =
        (uniqueFirst ((adae.filter (fun r => r.TRT01A == trt &&
          titlecase r.AEBODSYS == soc && titlecase r.AEDECOD == ae_term)).map
            (fun r => r.USUBJID))).length) ∧
    (∀ soc ae_term trt,
      adae.filter (fun r => r.TRT01A == trt && titlecase r.AEBODSYS == soc &&
        titlecase r.AEDECOD == ae_term) = [] →
      some (natStr (termCount (socData adae soc) ae_term trt)) = some "0") := by
  have hstruct : T.header = "System Organ Class / Preferred Term" :: trts ∧
      T.rows = (some "Participants in population" ::
          trts.map (fun t => some (natStr ((popLookup pop t).getD 0)))) ::
        List.replicate (trts.length + 1) (some "") ::
        (socList adae).flatMap (fun soc =>
          (some soc :: List.replicate trts.length (some "")) ::
            (termList (socData adae soc)).map (fun ae_term =>
              aeTermRow (socData adae soc) ae_term trts)) := by
    rw [create_ae_by_soc_table] at hok
    cases hpop : exceptMap (fun t =>
        match popLookup pop t with
        | some nv => Except.ok (some (natStr nv))
        | none => Except.error PyErr.indexError) trts with
    | error e => rw [hpop] at hok; exact absurd hok (by simp [Bind.bind, Except.bind])
    | ok popCells =>
        rw [hpop] at hok
        have hcells : popCells = trts.map (fun t =>
            some (natStr ((popLookup pop t).getD 0))) := by
          refine exceptMap_ok_eq_map ?_ hpop
          intro x y hxy
          rcases hx : popLookup pop x with _ | nv
          · rw [hx] at hxy; cases hxy
          · rw [hx] at hxy; cases hxy; rfl
        simp only [Bind.bind, Except.bind, mkTableE] at hok
        split at hok
        · cases hok
          exact ⟨rfl, by rw [hcells]⟩
        · cases hok
  refine ⟨hstruct.1, hstruct.2, socList_sorted adae, socList_mem adae, ?_, ?_, ?_⟩
  · intro soc; exact termList_sorted _
  · intro soc ae_term trt; exact termCount_eq_distinct_subjects adae soc ae_term trt
  · intro soc ae_term trt hempty
    rw [termCount_eq_distinct_subjects adae soc ae_term trt, hempty]
    rfl

/-- C8 witness: Scenario D — two system organ classes, each with one term;
the table has the two SOC header blocks in alphabetical order and the
witnessed structural equation holds. -/
theorem c8_witness :
    ∃ T, create_ae_by_soc_table
        [⟨"s1", "Drug", "RASH", "SKIN DISORDERS", "N", "NONE", "", ""⟩,
         ⟨"s2", "Drug", "ANGINA", "CARDIAC DISORDERS", "N", "NONE", "", ""⟩]
        [("Drug", 2), ("Placebo", 3)] ["Placebo", "Drug"] = .ok T ∧
      T.header = "System Organ Class / Preferred Term" :: ["Placebo", "Drug"] ∧
      List.Sorted strLeP (socList
        [⟨"s1", "Drug", "RASH", "SKIN DISORDERS", "N", "NONE", "", ""⟩,
         ⟨"s2", "Drug", "ANGINA", "CARDIAC DISORDERS", "N", "NONE", "", ""⟩]) ∧
      T.rows = [[some "Participants in population", some "3", some "2"],
                [some "", some "", some ""],
                [some "Cardiac Disorders", some "", some ""],
                [some "  Angina", some "0", some "1"],
                [some "Skin Disorders", some "", some ""],
                [some "  Rash", some "0", some "1"]] := by
  have h := c8_ae_by_soc_structure
    [⟨"s1", "Drug", "RASH", "SKIN DISORDERS", "N", "NONE", "", ""⟩,
     ⟨"s2", "Drug", "ANGINA", "CARDIAC DISORDERS", "N", "NONE", "", ""⟩]
    [("Drug", 2), ("Placebo", 3)] ["Placebo", "Drug"]
    ⟨["System Organ Class / Preferred Term", "Placebo", "Drug"],
     [[some "Participants in population", some "3", some "2"],
      [some "", some "", some ""],
      [some "Cardiac Disorders", some "", some ""],
      [some "  Angina", some "0", some "1"],
      [some "Skin Disorders", some "", some ""],
      [some "  Rash", some "0", some "1"]]⟩ rfl
  exact ⟨_, rfl, h.1, h.2.2.1, rfl⟩

lemma exceptMap_ok_mem {f : α → Except PyErr β} :
    ∀ {l : List α} {ys : List β}, exceptMap f l = .ok ys →
      ∀ x ∈ l, ∃ y ∈ ys, f x = .ok y := by
  intro l
  induction l with
  | nil => intro ys _ x hx; exact absurd hx (List.not_mem_nil x)
  | cons a l ih =>
      intro ys h x hx
      rw [exceptMap] at h
      cases hfa : f a with
      | error e => rw [hfa] at h; simp [Bind.bind, Except.bind] at h
      | ok b =>
          rw [hfa] at h
          cases hrest : exceptMap f l with
          | error e => rw [hrest] at h; simp [Bind.bind, Except.bind] at h
          | ok bs =>
              rw [hrest] at h
              simp only [Bind.bind, Except.bind, Except.ok.injEq] at h
              subst h
              rcases List.mem_cons.1 hx with rfl | hx2
              · exact ⟨b, List.mem_cons_self b bs, hfa⟩
              · rcases ih hrest x hx2 with ⟨y, hy, hfy⟩
                exact ⟨y, List.mem_cons_of_mem b hy, hfy⟩

lemma exceptMap_error_src {f : α → Except PyErr β} :
    ∀ {l : List α} {e : PyErr}, exceptMap f l = .error e → ∃ x ∈ l, f x = .error e := by
  intro l
  induction l with
  | nil => intro e h; rw [exceptMap] at h; cases h
  | cons a l ih =>
      intro e h
      rw [exceptMap] at h
      cases hfa : f a with
      | error e2 =>
          rw [hfa] at h
          simp only [Bind.bind, Except.bind, Except.error.injEq] at h
          subst h
          exact ⟨a, List.mem_cons_self a l, hfa⟩
      | ok b =>
          rw [hfa] at h
          cases hrest : exceptMap f l with
          | error e2 =>
              rw [hrest] at h
              simp only [Bind.bind, Except.bind, Except.error.injEq] at h
              subst h
              rcases ih hrest with ⟨x, hx, hfx⟩
              exact ⟨x, List.mem_cons_of_mem a hx, hfx⟩
          | ok bs => rw [hrest] at h; simp [Bind.bind, Except.bind] at h

lemma contSection_ok_shape (adsl : List AdslRow) (var : String) (trts : List String)
    (rows : List (List (Option String))) (h : contSection adsl var trts = .ok rows) :
    ∃ m d, rows = [[some (contLabel var), some "", some "", some ""],
      some "  Mean (SD)" :: m, some "  Median [Min, Max]" :: d] := by
  rw [contSection] at h
  cases h1 : exceptMap (fun t =>
      match contMeanCell (format_continuous_stats (summarize_continuous adsl var)) t with
      | some s => Except.ok (some s)
      | none => Except.error PyErr.attributeError) trts with
  | error e => rw [h1] at h; cases h
  | ok m =>
      rw [h1] at h
      cases h2 : exceptMap (fun t =>
          match contMedianCell (format_continuous_stats (summarize_continuous adsl var)) t with
          | some s => Except.ok (some s)
          | none => Except.error PyErr.attributeError) trts with
      | error e => rw [h2] at h; cases h
      | ok d => rw [h2] at h; cases h; exact ⟨m, d, rfl⟩

lemma contSection_error (adsl : List AdslRow) (var : String) (trts : List String)
    (e : PyErr) (h : contSection adsl var trts = .error e) : e = .attributeError := by
  rw [contSection] at h
  cases h1 : exceptMap (fun t =>
      match contMeanCell (format_continuous_stats (summarize_continuous adsl var)) t with
      | some s => Except.ok (some s)
      | none => Except.error PyErr.attributeError) trts with
  | error e1 =>
      rw [h1] at h
      cases h
      rcases exceptMap_error_src h1 with ⟨t, _, hft⟩
      rcases hc : contMeanCell (format_continuous_stats (summarize_continuous adsl var)) t
        with _ | s
      · rw [hc] at hft; cases hft; rfl
      · rw [hc] at hft; cases hft
  | ok m =>
      rw [h1] at h
      cases h2 : exceptMap (fun t =>
          match contMedianCell (format_continuous_stats (summarize_continuous adsl var)) t with
          | some s => Except.ok (some s)
          | none => Except.error PyErr.attributeError) trts with
      | error e2 =>
          rw [h2] at h
          cases h
          rcases exceptMap_error_src h2 with ⟨t, _, hft⟩
          rcases hc : contMedianCell (format_continuous_stats (summarize_continuous adsl var)) t
            with _ | s
          · rw [hc] at hft; cases hft; rfl
          · rw [hc] at hft; cases hft
      | ok d => rw [h2] at h; cases h

lemma baseline_header_row_mem (adsl : List AdslRow) (cont cat trts : List String)
    (hvars : cont ++ cat ≠ []) (secs : List (List (List (Option String))))
    (hsecs : exceptMap (fun v => contSection adsl v trts) cont = .ok secs) :
    ∃ row ∈ secs.flatten ++ cat.flatMap (fun v => catSection adsl v trts),
      row.length = 4 := by
  cases cont with
  | cons c cs =>
      rcases exceptMap_ok_mem hsecs c (List.mem_cons_self c cs) with ⟨sec, hsec, hok⟩
      rcases contSection_ok_shape adsl c trts sec hok with ⟨m, d, hshape⟩
      refine ⟨[some (contLabel c), some "", some "", some ""], ?_, rfl⟩
      refine List.mem_append.2 (Or.inl (List.mem_flatten.2 ⟨sec, hsec, ?_⟩))
      rw [hshape]
      exact List.mem_cons_self _ _
  | nil =>
      cases cat with
      | nil => exact absurd rfl hvars
      | cons v vs =>
          refine ⟨[some (titlecase v), some "", some "", some ""], ?_, rfl⟩
          refine List.mem_append.2 (Or.inr (List.mem_flatMap.2 ⟨v, List.mem_cons_self v vs, ?_⟩))
          rw [catSection]
          exact List.mem_cons_self _ _

/-- C10 counterexample: with a treatments list of length 1 (not 3) and a
continuous variable whose only treatment group holds a single subject, the
failure is an `AttributeError` (the null mean-SD string reaches `.replace`),
not a row-length/schema mismatch error. -/
theorem c10_counterexample :
    create_baseline_table [⟨"Drug", fun _ => 50, fun _ => none⟩] ["AGE"] [] ["Drug"] =
      .error .attributeError ∧
    (Except.error (ε := PyErr) (α := PTable) .attributeError ≠ .error .shapeError) := by
  refine ⟨rfl, fun h => ?_⟩
  exact absurd (Except.error.inj h) (by decide)

/-- C10 (amended): with at least one variable requested,
`create_baseline_table` succeeds only when the treatments list has exactly 3
elements (every variable header row is built with exactly 3 blank cells);
with any other length it fails — with the row-length/schema mismatch error
whenever row building completes (in particular whenever only categorical
variables are requested), but a continuous variable whose treatment group
holds a single subject makes row building fail first with an attribute
error. -/
theorem c10_amended_three_treatments (adsl : List AdslRow) (cont cat trts : List String)
    (hvars : cont ++ cat ≠ []) :
    ((∃ T, create_baseline_table adsl cont cat trts = .ok T) → trts.length = 3) ∧
    (trts.length ≠ 3 →
      create_baseline_table adsl cont cat trts = .error .attributeError ∨
      create_baseline_table adsl cont cat trts = .error .shapeError) ∧
    (cont = [] → trts.length ≠ 3 →
      create_baseline_table adsl cont cat trts = .error .shapeError) := by
  have hok_len : ∀ T, create_baseline_table adsl cont cat trts = .ok T → trts.length = 3 := by
    intro T hok
    rw [create_baseline_table] at hok
    cases hsecs : exceptMap (fun v => contSection adsl v trts) cont with
    | error e => rw [hsecs] at hok; exact absurd hok (by simp [Bind.bind, Except.bind])
    | ok secs =>
        rw [hsecs] at hok
        simp only [Bind.bind, Except.bind, mkTableE] at hok
        rcases baseline_header_row_mem adsl cont cat trts hvars secs hsecs with ⟨row, hrow, hlen⟩
        split at hok
        · rename_i hall
          have := List.all_eq_true.1 hall row hrow
          have hlen2 : row.length = ("Characteristic" :: trts).length := of_decide_eq_true this
          rw [hlen, List.length_cons] at hlen2
          omega
        · cases hok
  refine ⟨fun ⟨T, hok⟩ => hok_len T hok, ?_, ?_⟩
  · intro hne
    cases hres : create_baseline_table adsl cont cat trts with
    | ok T => exact absurd (hok_len T hres) hne
    | error e =>
        rw [create_baseline_table] at hres
        cases hsecs : exceptMap (fun v => contSection adsl v trts) cont with
        | error e0 =>
            rw [hsecs] at hres
            simp only [Bind.bind, Except.bind, Except.error.injEq] at hres
            subst hres
            rcases exceptMap_error_src hsecs with ⟨v, _, hv⟩
            exact Or.inl (by rw [contSection_error adsl v trts e0 hv])
        | ok secs =>
            rw [hsecs] at hres
            simp only [Bind.bind, Except.bind, mkTableE] at hres
            split at hres
            · cases hres
            · cases hres
              exact Or.inr rfl
  · intro hcont hne
    subst hcont
    rw [create_baseline_table]
    have hsecs : exceptMap (fun v => contSection adsl v trts) [] = .ok [] := rfl
    rw [hsecs]
    simp only [Bind.bind, Except.bind, mkTableE]
    rw [if_neg]
    intro hall
    rcases baseline_header_row_mem adsl [] cat trts hvars [] hsecs with ⟨row, hrow, hlen⟩
    have := List.all_eq_true.1 hall row hrow
    have hlen2 : row.length = ("Characteristic" :: trts).length := of_decide_eq_true this
    rw [hlen, List.length_cons] at hlen2
    omega

/-- C10 amended witness: a categorical-only request with a 1-element
treatments list fails with the schema mismatch error. -/
theorem c10_witness :
    create_baseline_table [⟨"A", fun _ => 30, fun v => if v = "SEX" then some "F" else none⟩]
      [] ["SEX"] ["A"] = .error .shapeError :=
  (c10_amended_three_treatments
    [⟨"A", fun _ => 30, fun v => if v = "SEX" then some "F" else none⟩]
    [] ["SEX"] ["A"] (by decide)).2.2 rfl (by decide)
